import Mathlib

/-!
Verification development for the `css-in-js-batch` benchmark harness
(`src/src/main.tsx`).

The harness is an in-browser micro-benchmark page.  This file gives a shallow
embedding of its data model and operations:

* pure helpers (`pick`, `maybe`, prop generation, `formatBytes`, `memDelta`,
  `upsertResult`) are translated directly into Lean functions;
* the random source `Math.random()` is modelled as a stream `g : ℕ → ℚ` of
  values, consumed in the order the original code calls `Math.random()`;
* `performance.now()` readings and the per-render wall/profiler durations are
  modelled as oracles carried in an `Env` record (the arithmetic performed on
  them is translated exactly);
* the DOM is modelled as a `DomState` recording the number of appended
  benchmark containers and the `data-emotion` attributes of injected style
  tags; async effects (`window.gc`, `requestAnimationFrame`) that have no
  observable state in the harness are modelled as an event trace where needed;
* JavaScript division, whose result is non-finite (NaN or ±Infinity) when the
  divisor is zero, is modelled by `jsDiv : ℚ → ℚ → Option ℚ` returning `none`
  exactly on a zero divisor.
-/

/-- A rational in the half-open unit interval, the range of `Math.random()`. -/
abbrev inUnit (q : ℚ) : Prop := 0 ≤ q ∧ q < 1

/-- Value of the optional `flex` prop: the source draws it from
`[0, 1, 2, 3, '0 1 auto']`, a mix of numbers and a string. -/
inductive FlexValue where
  | num (n : ℕ)
  | str (s : String)
deriving DecidableEq, Repr, Inhabited

/-- One container's layout configuration, the `Record<string, unknown>`
produced by `buildRandomProps` / `buildFixedProps`.  An absent key is `none`. -/
structure PropSet where
  direction : String
  align : String
  justify : String
  wrap : String
  gap : ℕ
  padding : ℕ
  width : Option ℕ
  height : Option ℕ
  flex : Option FlexValue
deriving DecidableEq, Repr

/-- `directions` array of `buildRandomProps`. -/
def directions : List String :=
  ["horizontal", "horizontal-reverse", "vertical", "vertical-reverse"]

/-- `aligns` array of `buildRandomProps`. -/
def aligns : List String :=
  ["stretch", "center", "flex-start", "flex-end", "start", "end", "baseline"]

/-- `justifies` array of `buildRandomProps`. -/
def justifies : List String :=
  ["flex-start", "center", "flex-end", "space-between", "space-around",
   "space-evenly", "start", "end", "left", "right"]

/-- `wraps` array of `buildRandomProps`. -/
def wraps : List String := ["nowrap", "wrap", "wrap-reverse"]

/-- `gaps` array of `buildRandomProps`. -/
def gaps : List ℕ := [0, 2, 4, 8, 12, 16, 24]

/-- `paddings` array of `buildRandomProps`. -/
def paddings : List ℕ := [0, 2, 4, 8, 12, 16, 24]

/-- `sizes` array of `buildRandomProps`. -/
def sizes : List ℕ := [120, 240, 360, 480, 640]

/-- `flexChoices` array of `buildRandomProps`. -/
def flexChoices : List FlexValue :=
  [.num 0, .num 1, .num 2, .num 3, .str "0 1 auto"]

/-- `pick(arr) = arr[Math.floor(Math.random() * arr.length)]`, with the random
draw `r` made explicit.  For `r` outside `[0,1)` JavaScript would index out of
bounds and yield `undefined`; `getD` supplies the `Inhabited` default there. -/
def pick {α : Type} [Inhabited α] (arr : List α) (r : ℚ) : α :=
  arr.getD (Int.floor (r * arr.length)).toNat default

/-- `maybe(value, probability) = Math.random() < probability ? value :
undefined`, with the random draw `r` made explicit. -/
def maybeV {α : Type} (value : α) (probability r : ℚ) : Option α :=
  if r < probability then some value else none

/-- `buildRandomProps`, reading twelve consecutive values `g k, …, g (k+11)`
from the random stream in the order the source evaluates `Math.random()`:
six `pick`s, then for each of `width`/`height`/`flex` a `pick` followed by the
`maybe` draw (the source evaluates `pick(...)` before `maybe` tests the
probability).  Returns the generated `PropSet` and the next stream index. -/
def buildRandomProps (g : ℕ → ℚ) (k : ℕ) : PropSet × ℕ :=
  ({ direction := pick directions (g k)
   , align := pick aligns (g (k + 1))
   , justify := pick justifies (g (k + 2))
   , wrap := pick wraps (g (k + 3))
   , gap := pick gaps (g (k + 4))
   , padding := pick paddings (g (k + 5))
   , width := maybeV (pick sizes (g (k + 6))) (35 / 100) (g (k + 7))
   , height := maybeV (pick sizes (g (k + 8))) (35 / 100) (g (k + 9))
   , flex := maybeV (pick flexChoices (g (k + 10))) (4 / 10) (g (k + 11)) },
   k + 12)

/-- `buildFixedProps`: the constant fixed-mode configuration. -/
def buildFixedProps : PropSet :=
  { direction := "horizontal"
  , align := "center"
  , justify := "space-between"
  , wrap := "wrap"
  , gap := 8
  , padding := 8
  , width := none
  , height := none
  , flex := none }

/-- The `for` loop body of `buildPropsList`, pushing `count` prop sets and
threading the random-stream index. -/
def buildPropsListAux (randomized : Bool) (g : ℕ → ℚ) :
    ℕ → ℕ → List PropSet × ℕ
  | 0, k => ([], k)
  | n + 1, k =>
    let (p, k1) := if randomized then buildRandomProps g k else (buildFixedProps, k)
    let (ps, k2) := buildPropsListAux randomized g n k1
    (p :: ps, k2)

/-- `buildPropsList`: one `PropsList` of length `count` (`flexboxCount` in the
source), random or fixed according to `randomized` (`randomPropsEnabled`). -/
def buildPropsList (count : ℕ) (randomized : Bool) (g : ℕ → ℚ) (k : ℕ) :
    List PropSet × ℕ :=
  buildPropsListAux randomized g count k

/-- `Array.from({ length: n }, () => buildPropsList())`: `n` successive calls
of `buildPropsList`, threading the random stream left to right. -/
def buildPropsLists (count : ℕ) (randomized : Bool) (g : ℕ → ℚ) :
    ℕ → ℕ → List (List PropSet) × ℕ
  | 0, k => ([], k)
  | n + 1, k =>
    let (l, k1) := buildPropsList count randomized g k
    let (ls, k2) := buildPropsLists count randomized g n k1
    (l :: ls, k2)

/-- The `MemorySample` record read by `readMemory` from `performance.memory`.
Every field of the TypeScript type is optional; `readMemory` itself fills all
three or returns `undefined` for the whole sample. -/
structure MemorySample where
  usedJSHeapSize : Option ℤ
  totalJSHeapSize : Option ℤ
  jsHeapSizeLimit : Option ℤ
deriving DecidableEq, Repr

/-- `memDelta(a, b)`: `b?.usedJSHeapSize - a?.usedJSHeapSize`, `undefined`
(here `none`) when either operand is missing. -/
def memDelta (a b : Option MemorySample) : Option ℤ :=
  match a.bind MemorySample.usedJSHeapSize, b.bind MemorySample.usedJSHeapSize with
  | some av, some bv => some (bv - av)
  | _, _ => none

/-- The `units` array of `formatBytes`. -/
def byteUnits : List String := ["B", "KB", "MB", "GB"]

/-- The `while (v >= 1024 && i < units.length - 1)` loop of `formatBytes`.
Each pass divides `v` by 1024 and increments `i`; since `i` strictly increases
and the guard requires `i < 3`, the loop runs at most three times, so fuel 4
makes this recursion equal to the JavaScript loop. -/
def scaleStep : ℚ → ℕ → ℕ → ℚ × ℕ
  | v, i, 0 => (v, i)
  | v, i, fuel + 1 =>
    if 1024 ≤ v ∧ i < 3 then scaleStep (v / 1024) (i + 1) fuel else (v, i)

/-- `v.toFixed(2)` for a nonnegative value.  ECMAScript `toFixed` picks the
integer `n` minimising the distance of `n / 100` to the value, the larger `n`
on a tie, i.e. round half up for nonnegative values.  All values reaching
`toFixed` in `formatBytes` are nonnegative, and dividing a double by 1024 is
exact, so the rational computed here is the double being formatted. -/
def toFixed2 (v : ℚ) : String :=
  let n : ℕ := (Int.floor (v * 100 + 1 / 2)).toNat
  toString (n / 100) ++ "." ++ (if n % 100 < 10 then "0" else "") ++ toString (n % 100)

/-- `formatBytes(bytes)`: `'-'` for a missing operand, otherwise the sign
(`''` or `'-'`), the absolute value scaled by the `while` loop, `toFixed(2)`,
and the unit (the source's locals `sign`, `v`, `i` written inline). -/
def formatBytes : Option ℤ → String
  | none => "-"
  | some bytes =>
    (if bytes < 0 then "-" else "") ++
      toFixed2 (scaleStep ((bytes.natAbs : ℕ) : ℚ) 0 4).1 ++ " " ++
      byteUnits.getD (scaleStep ((bytes.natAbs : ℕ) : ℚ) 0 4).2 ""

/-- Observable host effects of the synchronisation helpers: a call of the
manual GC hook `window.gc()`, and an awaited `requestAnimationFrame` boundary. -/
inductive HostEvent where
  | gcCall
  | frameWait
deriving DecidableEq, Repr

/-- `maybeGC`: when `window.gc` is a function, call it and await one frame
(`raf()`); otherwise do nothing at all.  The value is the trace of host
effects the call performs. -/
def maybeGC (gcAvailable : Bool) : List HostEvent :=
  if gcAvailable then [HostEvent.gcCall, HostEvent.frameWait] else []

/-- JavaScript division as used for the per-op timings: a zero divisor yields
a non-finite number (`NaN` for `0/0`, `±Infinity` otherwise), modelled as
`none`; any other division is exact rational division here. -/
def jsDiv (a b : ℚ) : Option ℚ :=
  if b = 0 then none else some (a / b)

/-- An in-memory React element descriptor, as built (never mounted) by the
creation-only phase: an implementation instance carrying its props and its
`itemsPerFlexbox` placeholder children, or a fragment of such instances. -/
inductive RNode where
  | elem (implName : String) (props : PropSet) (leafChildren : ℕ) : RNode
  | fragment (children : List RNode) : RNode

/-- The element built per iteration of `runCreateOnlyForest`:
`React.createElement(React.Fragment, null, propsList.map(p =>
React.createElement(Impl, {...p, key: idx}, buildChildren(itemsPerFlexbox))))`. -/
def forestElement (implName : String) (propsList : List PropSet) (items : ℕ) : RNode :=
  .fragment (propsList.map (fun p => .elem implName p items))

/-- `React.isValidElement`: `false` on `null` (the loop variable's initial
value), `true` on anything `React.createElement` produced. -/
def isValidElement : Option RNode → Bool
  | none => false
  | some _ => true

/-- The host-environment oracles a run consumes: availability of `window.gc`,
the two `performance.now()` readings bracketing the creation loop, the
wall-clock time and profiler-reported `actualDuration` of the `n`-th
`renderAndWait` call of the update phase (call 0 is the warmup mount), the
four `readMemory()` results, and the `Math.random()` stream. -/
structure Env where
  gcAvailable : Bool
  createStart : ℚ
  createEnd : ℚ
  wall : ℕ → ℚ
  actual : ℕ → ℚ
  createMemBefore : Option MemorySample
  createMemAfter : Option MemorySample
  mountMemBefore : Option MemorySample
  mountMemAfter : Option MemorySample
  rand : ℕ → ℚ

/-- The document state the harness mutates: how many benchmark containers are
appended to `document.body`, and the `data-emotion` attribute values of the
`<style data-emotion>` tags currently in the document. -/
structure DomState where
  body : ℕ
  styles : List String
deriving DecidableEq, Repr

/-- `cleanupEmotionStyleTags`: remove every `<style data-emotion>` tag whose
key, trimmed, starts with `css`. -/
def cleanupEmotionStyleTags (styles : List String) : List String :=
  styles.filter (fun key => !(key.trim.startsWith "css"))

/-- Return value of `runCreateOnlyForest`. -/
structure CreateResult where
  name : String
  createOnlyMsTotal : ℚ
  createOnlyMsPerOp : Option ℚ
  createBefore : Option MemorySample
  createAfter : Option MemorySample
deriving DecidableEq

/-- `runCreateOnlyForest`: settle, sample memory, run the construction loop
`iterations` times (a JavaScript `for (let i = 0; i < iterations; i++)`, so a
zero or negative count runs zero iterations — `Int.toNat`), check the last
constructed value with `React.isValidElement`, throw the sanity-check error if
it is not an element, otherwise sample memory again and report
`total = end - start` and `total / iterations`.  The phase touches no DOM. -/
def runCreateOnlyForest (env : Env) (name implName : String)
    (propsList : List PropSet) (items : ℕ) (iterations : ℤ) :
    Except String CreateResult :=
  let before := env.createMemBefore
  let last : Option RNode :=
    (List.range iterations.toNat).foldl
      (fun _ _ => some (forestElement implName propsList items)) none
  if isValidElement last then
    let afterCreate := env.createMemAfter
    let total := env.createEnd - env.createStart
    .ok { name := name
        , createOnlyMsTotal := total
        , createOnlyMsPerOp := jsDiv total (iterations : ℚ)
        , createBefore := before
        , createAfter := afterCreate }
  else .error "create-only sanity check failed"

/-- Return value of `runUpdateBatchKeepMounted`. -/
structure UpdateResult where
  name : String
  updateMsTotal : ℚ
  updateMsPerOp : Option ℚ
  reactActualDurationMsTotal : ℚ
  mountBefore : Option MemorySample
  mountAfter : Option MemorySample
deriving DecidableEq

/-- `runUpdateBatchKeepMounted`: fail with the configuration error before
touching the document when fewer than `loops + 1` props lists are supplied;
otherwise append an offscreen container, mount a warmup frame
(`renderAndWait` call 0, unmeasured), sample memory, run `loops` measured
re-renders accumulating wall time and profiler duration (calls 1..loops),
sample memory again, unmount and remove the container, clean up the emotion
style tags, and report `total / loops`.  The rendering work itself is
abstracted by the `env.wall` / `env.actual` oracles; `implName` identifies the
implementation under test, whose behaviour those oracles stand for. -/
def runUpdateBatchKeepMounted (dom : DomState) (env : Env)
    (name implName : String) (propsLists : List (List PropSet)) (loops : ℕ) :
    DomState × Except String UpdateResult :=
  if propsLists.length < loops + 1 then
    (dom, .error "propsLists must include warmup + loops")
  else
    let dom1 : DomState := { dom with body := dom.body + 1 }
    let before := env.mountMemBefore
    let wallTotal := ((List.range loops).map (fun i => env.wall (i + 1))).sum
    let actualTotal := ((List.range loops).map (fun i => env.actual (i + 1))).sum
    let after := env.mountMemAfter
    let dom2 : DomState := { dom1 with body := dom1.body - 1 }
    let dom3 : DomState := { dom2 with styles := cleanupEmotionStyleTags dom2.styles }
    (dom3,
     .ok { name := name
         , updateMsTotal := wallTotal
         , updateMsPerOp := jsDiv wallTotal (loops : ℚ)
         , reactActualDurationMsTotal := actualTotal
         , mountBefore := before
         , mountAfter := after })

/-- The merged `CaseResult` the driver upserts into the Result Store. -/
structure CaseResult where
  name : String
  createOnlyMsTotal : ℚ
  createOnlyMsPerOp : Option ℚ
  updateMsTotal : ℚ
  updateMsPerOp : Option ℚ
  reactActualDurationMsTotal : ℚ
  createBefore : Option MemorySample
  createAfter : Option MemorySample
  mountBefore : Option MemorySample
  mountAfter : Option MemorySample
deriving DecidableEq

/-- `upsertResult(next)` on the results list: `findIndex` by name, replace the
first entry with the same name if one exists, otherwise push at the end. -/
def upsertResult (next : CaseResult) : List CaseResult → List CaseResult
  | [] => [next]
  | r :: rest =>
    if r.name = next.name then next :: rest else r :: upsertResult next rest

/-- The `cases` table: benchmark name paired with the implementation it maps
to (`FlexBasic`, `NativeFlexBasicElement`, `RlkFlexbox`). -/
def benchCases : List (String × String) :=
  [("local(FlexBasic)", "FlexBasic"),
   ("native(WebComponent)", "NativeFlexBasicElement"),
   ("react-layout-kit(Flexbox)", "RlkFlexbox")]

/-- The component-state inputs a run reads: `createIterations` (an arbitrary
number typed into the input, hence `ℤ`), `mountLoops`, `flexboxCount`,
`itemsPerFlexbox`, `randomPropsEnabled`. -/
structure BenchConfig where
  createIterations : ℤ
  mountLoops : ℕ
  flexboxCount : ℕ
  itemsPerFlexbox : ℕ
  randomPropsEnabled : Bool

/-- The component state `runOne` mutates: the `running` flag, the Result
Store (`results`; the source's initial `null` and `[]` both mean "empty"),
and the error message. -/
structure RunState where
  running : Bool
  results : List CaseResult
  error : Option String
deriving DecidableEq

/-- `Array.from({ length: mountLoops + 1 }, () => buildPropsList())` in
`runOne`: the props lists precomputed for the update phase, starting at
random-stream index `k`. -/
def propsListsForUpdate (cfg : BenchConfig) (g : ℕ → ℚ) (k : ℕ) :
    List (List PropSet) × ℕ :=
  buildPropsLists cfg.flexboxCount cfg.randomPropsEnabled g (cfg.mountLoops + 1) k

/-- The `try` block of `runOne`: resolve the case by name (`Unknown case` on
failure), generate the creation props list and the update props lists, run the
creation phase then the update phase, and merge the two results.  Also
returns the document state as left by whichever steps ran. -/
def runOneTry (cfg : BenchConfig) (env : Env) (name : String) (dom : DomState) :
    DomState × Except String CaseResult :=
  match benchCases.find? (fun c => c.1 == name) with
  | none => (dom, .error ("Unknown case: " ++ name))
  | some c =>
    let (propsList, k1) := buildPropsList cfg.flexboxCount cfg.randomPropsEnabled env.rand 0
    let (propsListsUpd, _) := propsListsForUpdate cfg env.rand k1
    match runCreateOnlyForest env c.1 c.2 propsList cfg.itemsPerFlexbox cfg.createIterations with
    | .error msg => (dom, .error msg)
    | .ok create =>
      match runUpdateBatchKeepMounted dom env c.1 c.2 propsListsUpd cfg.mountLoops with
      | (dom2, .error msg) => (dom2, .error msg)
      | (dom2, .ok upd) =>
        (dom2,
         .ok { name := c.1
             , createOnlyMsTotal := create.createOnlyMsTotal
             , createOnlyMsPerOp := create.createOnlyMsPerOp
             , updateMsTotal := upd.updateMsTotal
             , updateMsPerOp := upd.updateMsPerOp
             , reactActualDurationMsTotal := upd.reactActualDurationMsTotal
             , createBefore := create.createBefore
             , createAfter := create.createAfter
             , mountBefore := upd.mountBefore
             , mountAfter := upd.mountAfter })

/-- `runOne`: clear the error and set `running`; run the `try` block; on
success upsert the merged result, on failure store the human-readable message;
in the `finally`, clear `running`. -/
def runOne (cfg : BenchConfig) (env : Env) (name : String)
    (st : RunState) (dom : DomState) : RunState × DomState :=
  let st1 : RunState := { st with error := none, running := true }
  let (dom2, r) := runOneTry cfg env name dom
  match r with
  | .ok merged =>
    ({ st1 with results := upsertResult merged st1.results, running := false }, dom2)
  | .error msg =>
    ({ st1 with error := some msg, running := false }, dom2)

/-- A constant random stream, a legal behaviour of `Math.random()`. -/
def zeroRand : ℕ → ℚ := fun _ => 0

/-- A concrete host environment used to exercise the runners on closed
inputs: no GC hook, no heap introspection, the creation loop observed from
time 0 to time 10, every `renderAndWait` taking 1 ms of wall time and
reporting 1 ms of profiler duration. -/
def env0 : Env :=
  { gcAvailable := false
  , createStart := 0
  , createEnd := 10
  , wall := fun _ => 1
  , actual := fun _ => 1
  , createMemBefore := none
  , createMemAfter := none
  , mountMemBefore := none
  , mountMemAfter := none
  , rand := zeroRand }

/-- An empty document. -/
def dom0 : DomState := { body := 0, styles := [] }

/-- The initial component state: not running, no results, no error. -/
def st0 : RunState := { running := false, results := [], error := none }

/-- A concrete configuration. -/
def cfg0 : BenchConfig :=
  { createIterations := 3
  , mountLoops := 2
  , flexboxCount := 1
  , itemsPerFlexbox := 2
  , randomPropsEnabled := false }

/-- A memory sample whose used-heap count is 1,000,000 bytes. -/
def memBefore1M : MemorySample :=
  { usedJSHeapSize := some 1000000
  , totalJSHeapSize := some 1500000
  , jsHeapSizeLimit := some 4294967296 }

/-- A memory sample whose used-heap count is 1,048,576 bytes. -/
def memAfter1Mi : MemorySample :=
  { usedJSHeapSize := some 1048576
  , totalJSHeapSize := some 1500000
  , jsHeapSizeLimit := some 4294967296 }

/-- A memory sample with no used-heap count. -/
def memNoUsed : MemorySample :=
  { usedJSHeapSize := none
  , totalJSHeapSize := some 1500000
  , jsHeapSizeLimit := some 4294967296 }

/-- The creation-phase result `runCreateOnlyForest env0 "a" "b"
[buildFixedProps] 1 2` computes: total 10 ms, 5 ms per op. -/
def crC5 : CreateResult :=
  { name := "a"
  , createOnlyMsTotal := 10
  , createOnlyMsPerOp := some 5
  , createBefore := none
  , createAfter := none }

/-- The update-phase result of a `loops = 0` call under `env0`: the empty
measured batch has zero total time, and the per-op division `0 / 0` is the
non-finite `NaN`, modelled as `none`. -/
def urC5 : UpdateResult :=
  { name := "x"
  , updateMsTotal := 0
  , updateMsPerOp := none
  , reactActualDurationMsTotal := 0
  , mountBefore := none
  , mountAfter := none }

/-- A result whose fields are zero except the case name, for exercising the
Result Store. -/
def mkResult (name : String) (t : ℚ) : CaseResult :=
  { name := name
  , createOnlyMsTotal := t
  , createOnlyMsPerOp := none
  , updateMsTotal := 0
  , updateMsPerOp := none
  , reactActualDurationMsTotal := 0
  , createBefore := none
  , createAfter := none
  , mountBefore := none
  , mountAfter := none }

/-! ## Supporting lemmas -/

/-- Folding a constant-valued update over a nonempty list yields that value:
the creation loop's `last` variable holds the final assignment. -/
lemma foldl_const_some (e : RNode) (l : List ℕ) (init : Option RNode) (h : l ≠ []) :
    l.foldl (fun _ _ => some e) init = some e := by
  induction l generalizing init with
  | nil => exact absurd rfl h
  | cons a t ih =>
    cases t with
    | nil => rfl
    | cons b t2 =>
      simp only [List.foldl_cons]
      exact ih (some e) (by simp)

/-- `pick` returns an element of the array whenever the random draw is in the
unit interval. -/
lemma pick_mem {α : Type} [Inhabited α] (arr : List α) (r : ℚ)
    (hne : arr ≠ []) (h0 : 0 ≤ r) (h1 : r < 1) : pick arr r ∈ arr := by
  have hlen : 0 < arr.length := List.length_pos.mpr hne
  have hlenQ : (0 : ℚ) < (arr.length : ℚ) := by exact_mod_cast hlen
  have hnn : (0 : ℚ) ≤ r * (arr.length : ℚ) := mul_nonneg h0 (le_of_lt hlenQ)
  have hlt : r * (arr.length : ℚ) < (arr.length : ℚ) := by
    calc r * (arr.length : ℚ) < 1 * (arr.length : ℚ) :=
          mul_lt_mul_of_pos_right h1 hlenQ
      _ = (arr.length : ℚ) := one_mul _
  have hfl : Int.floor (r * (arr.length : ℚ)) < (arr.length : ℤ) :=
    Int.floor_lt.mpr (by exact_mod_cast hlt)
  have hf0 : 0 ≤ Int.floor (r * (arr.length : ℚ)) := Int.floor_nonneg.mpr hnn
  have hidx : (Int.floor (r * (arr.length : ℚ))).toNat < arr.length := by omega
  unfold pick
  rw [List.getD_eq_getElem _ _ hidx]
  exact List.getElem_mem hidx

/-- Fixed-mode generation ignores the random stream: the loop body pushes the
constant `buildFixedProps` and never advances the stream index. -/
lemma buildPropsListAux_fixed (g : ℕ → ℚ) :
    ∀ n k, buildPropsListAux false g n k = (List.replicate n buildFixedProps, k) := by
  intro n
  induction n with
  | zero => intro k; rfl
  | succ m ih => intro k; simp [buildPropsListAux, ih, List.replicate_succ]

/-- `buildPropsLists` produces exactly as many lists as requested. -/
lemma buildPropsLists_length (count : ℕ) (rnd : Bool) (g : ℕ → ℚ) :
    ∀ n k, ((buildPropsLists count rnd g n k).1).length = n := by
  intro n
  induction n with
  | zero => intro k; rfl
  | succ m ih =>
    intro k
    simp only [buildPropsLists]
    simp [ih]

/-! ## Claims -/

/-- Claim C1: for every implementation, props-lists array, and loop count, a
call of the update-batch phase with `propsLists.length < loops + 1` fails
immediately with the configuration error and leaves the document exactly
unchanged — no container is created, appended, or mounted. -/
theorem updateBatch_insufficient_propsLists_fails_without_mounting
    (dom : DomState) (env : Env) (name implName : String)
    (propsLists : List (List PropSet)) (loops : ℕ)
    (h : propsLists.length < loops + 1) :
    runUpdateBatchKeepMounted dom env name implName propsLists loops =
      (dom, .error "propsLists must include warmup + loops") := by
  unfold runUpdateBatchKeepMounted
  rw [if_pos h]

/-- Witness for C1: the guard fires on an empty props-lists array. -/
theorem updateBatch_insufficient_propsLists_fails_without_mounting_witness :
    ([] : List (List PropSet)).length < 0 + 1 ∧
      runUpdateBatchKeepMounted dom0 env0 "local(FlexBasic)" "FlexBasic" [] 0 =
        (dom0, .error "propsLists must include warmup + loops") :=
  ⟨by decide,
   updateBatch_insufficient_propsLists_fails_without_mounting dom0 env0
     "local(FlexBasic)" "FlexBasic" [] 0 (by decide)⟩

/-- Claim C10: with zero (or negative) iterations the creation-only phase
never runs the construction loop, `last` stays `null`, the validity assertion
fails, and the phase raises the create-only sanity-check error instead of
returning a result — so the division `total / iterations` is never evaluated
on this path. -/
theorem createOnly_zero_iterations_raises_sanity_error
    (env : Env) (name implName : String) (propsList : List PropSet)
    (items : ℕ) (iterations : ℤ) (h : iterations ≤ 0) :
    runCreateOnlyForest env name implName propsList items iterations =
      .error "create-only sanity check failed" := by
  unfold runCreateOnlyForest
  have h0 : iterations.toNat = 0 := Int.toNat_of_nonpos h
  rw [h0]
  simp [isValidElement]

/-- Witness for C10: at zero iterations the phase errors. -/
theorem createOnly_zero_iterations_raises_sanity_error_witness :
    (0 : ℤ) ≤ 0 ∧
      runCreateOnlyForest env0 "local(FlexBasic)" "FlexBasic" [buildFixedProps] 2 0 =
        .error "create-only sanity check failed" :=
  ⟨by decide,
   createOnly_zero_iterations_raises_sanity_error env0 "local(FlexBasic)"
     "FlexBasic" [buildFixedProps] 2 0 (by decide)⟩

/-- Counterexample to claim C4: when the manual GC hook is absent, `maybeGC`
performs no frame wait at all — its effect trace is empty, so it does not
suspend until a rendering frame boundary has passed. -/
theorem maybeGC_no_hook_no_frame_wait :
    maybeGC false = [] ∧ HostEvent.frameWait ∉ maybeGC false := by
  constructor
  · rfl
  · intro hmem
    simp [maybeGC] at hmem

/-- Claim C4 (amended): when the manual GC hook is available, `maybeGC`
invokes the hook and then waits for one frame boundary; when the hook is
absent, that is not an error, but `maybeGC` returns immediately and performs
no GC call and no frame wait. -/
theorem maybeGC_trace :
    maybeGC true = [HostEvent.gcCall, HostEvent.frameWait] ∧ maybeGC false = [] := by
  constructor <;> rfl

/-- Claim C8: the per-case driver precomputes exactly `loops + 1` props lists
for the update phase — one warmup frame plus `loops` measured frames — so the
array handed to `runUpdateBatchKeepMounted` always has exactly
`mountLoops + 1` entries and its length guard cannot fire. -/
theorem driver_generates_loops_plus_one_propsLists
    (cfg : BenchConfig) (g : ℕ → ℚ) (k : ℕ) :
    ((propsListsForUpdate cfg g k).1).length = cfg.mountLoops + 1 ∧
      ¬ (((propsListsForUpdate cfg g k).1).length < cfg.mountLoops + 1) := by
  have hl : ((propsListsForUpdate cfg g k).1).length = cfg.mountLoops + 1 := by
    unfold propsListsForUpdate
    exact buildPropsLists_length cfg.flexboxCount cfg.randomPropsEnabled g
      (cfg.mountLoops + 1) k
  exact ⟨hl, by omega⟩

/-- Counterexample to claim C5: `loops = 0` is a count the update phase
neither rejects nor guards — given the single warmup props list the guard
demands, the phase succeeds and evaluates the per-op division `0 / 0`, whose
JavaScript value is the non-finite `NaN` (modelled as `none`). -/
theorem updateBatch_zero_loops_is_divided :
    (runUpdateBatchKeepMounted dom0 env0 "x" "y" [[]] 0).2 = .ok urC5 ∧
      urC5.updateMsPerOp = none ∧ jsDiv 0 0 = none := by
  refine ⟨?_, rfl, rfl⟩
  rfl

/-- Claim C5 (amended): for every count ≥ 1 the reported per-op timing of
each phase is exactly the phase total divided by the count.  A zero count is
guarded in the creation phase only by accident — the sanity check throws
before the division — while the update phase accepts `loops = 0` (with one
props list) and evaluates the division by zero, so its per-op value is
non-finite rather than rejected. -/
theorem perOp_timing_is_total_div_count :
    (∀ (env : Env) (name implName : String) (pl : List PropSet) (items : ℕ)
        (iterations : ℤ) (r : CreateResult), 1 ≤ iterations →
        runCreateOnlyForest env name implName pl items iterations = .ok r →
        r.createOnlyMsPerOp = some (r.createOnlyMsTotal / (iterations : ℚ))) ∧
    (∀ (dom : DomState) (env : Env) (name implName : String)
        (pls : List (List PropSet)) (loops : ℕ) (dom2 : DomState)
        (r : UpdateResult), 1 ≤ loops →
        runUpdateBatchKeepMounted dom env name implName pls loops = (dom2, .ok r) →
        r.updateMsPerOp = some (r.updateMsTotal / (loops : ℚ))) ∧
    (∀ (env : Env) (name implName : String) (pl : List PropSet) (items : ℕ),
        runCreateOnlyForest env name implName pl items 0 =
          .error "create-only sanity check failed") ∧
    (∀ (dom : DomState) (env : Env) (name implName : String),
        (runUpdateBatchKeepMounted dom env name implName [[]] 0).2 =
          .ok { name := name, updateMsTotal := 0, updateMsPerOp := none
              , reactActualDurationMsTotal := 0
              , mountBefore := env.mountMemBefore
              , mountAfter := env.mountMemAfter }) := by
  refine ⟨?_, ?_, ?_, ?_⟩
  · intro env name implName pl items iterations r h1 hok
    have hne : iterations.toNat ≠ 0 := by omega
    have hrange : List.range iterations.toNat ≠ [] := by
      simpa [List.range_eq_nil] using hne
    have hlast := foldl_const_some (forestElement implName pl items)
      (List.range iterations.toNat) none hrange
    unfold runCreateOnlyForest at hok
    rw [hlast] at hok
    simp only [isValidElement, if_true] at hok
    injection hok with hok
    have hq : ((iterations : ℚ)) ≠ 0 := by
      have hz : iterations ≠ 0 := by omega
      exact_mod_cast hz
    rw [← hok]
    simp [jsDiv, hq]
  · intro dom env name implName pls loops dom2 r h1 hok
    unfold runUpdateBatchKeepMounted at hok
    by_cases hg : pls.length < loops + 1
    · rw [if_pos hg] at hok
      simp at hok
    · rw [if_neg hg] at hok
      simp only [Prod.mk.injEq] at hok
      obtain ⟨-, hres⟩ := hok
      injection hres with hres
      have hq : ((loops : ℚ)) ≠ 0 := Nat.cast_ne_zero.mpr (by omega)
      rw [← hres]
      simp [jsDiv, hq]
  · intro env name implName pl items
    rfl
  · intro dom env name implName
    rfl

/-- Witness for C5: under `env0` a 2-iteration creation phase reports 10 ms
total and 5 ms per op, which is exactly `total / 2`. -/
theorem perOp_timing_is_total_div_count_witness :
    (1 : ℤ) ≤ 2 ∧
      runCreateOnlyForest env0 "a" "b" [buildFixedProps] 1 2 = .ok crC5 ∧
      crC5.createOnlyMsPerOp = some (crC5.createOnlyMsTotal / ((2 : ℤ) : ℚ)) := by
  have hok : runCreateOnlyForest env0 "a" "b" [buildFixedProps] 1 2 = .ok crC5 := by
    unfold runCreateOnlyForest env0 crC5
    rw [(by decide : List.range (Int.toNat 2) = [0, 1])]
    simp only [List.foldl_cons, List.foldl_nil, isValidElement, if_true]
    norm_num [jsDiv]
  exact ⟨by decide, hok,
    perOp_timing_is_total_div_count.1 env0 "a" "b" [buildFixedProps] 1 2 crC5
      (by decide) hok⟩

/-- Claim C6: fixed-mode generation returns exactly `count` prop sets, each
deep-equal to the documented constant configuration, and its output does not
depend on the random source. -/
theorem fixed_mode_props_constant (N : ℕ) (g g2 : ℕ → ℚ) (k k2 : ℕ) :
    ((buildPropsList N false g k).1).length = N ∧
    (∀ p ∈ (buildPropsList N false g k).1,
        p = { direction := "horizontal", align := "center"
            , justify := "space-between", wrap := "wrap", gap := 8
            , padding := 8, width := none, height := none, flex := none }) ∧
    (buildPropsList N false g k).1 = (buildPropsList N false g2 k2).1 := by
  have hrep : buildPropsList N false g k = (List.replicate N buildFixedProps, k) :=
    buildPropsListAux_fixed g N k
  have hrep2 : buildPropsList N false g2 k2 = (List.replicate N buildFixedProps, k2) :=
    buildPropsListAux_fixed g2 N k2
  refine ⟨?_, ?_, ?_⟩
  · rw [hrep]
    simp
  · intro p hp
    rw [hrep] at hp
    have hp2 := List.eq_of_mem_replicate (by simpa using hp)
    rw [hp2]
    rfl
  · rw [hrep, hrep2]

/-- Witness for C6: a fixed-mode list of length 1 contains the constant
configuration. -/
theorem fixed_mode_props_constant_witness :
    buildFixedProps ∈ (buildPropsList 1 false zeroRand 0).1 ∧
      buildFixedProps =
        { direction := "horizontal", align := "center"
        , justify := "space-between", wrap := "wrap", gap := 8
        , padding := 8, width := none, height := none, flex := none } :=
  ⟨by decide,
   (fixed_mode_props_constant 1 zeroRand zeroRand 0 0).2.1 buildFixedProps
     (by decide)⟩

/-- Claim C7: whatever values in `[0,1)` the random source returns for the
twelve draws of one `buildRandomProps` call, the six mandatory keys are drawn
from the documented enumerations, and `width`/`height`/`flex` are, when
present, drawn from theirs. -/
theorem random_mode_values_in_enumerations (g : ℕ → ℚ) (k : ℕ)
    (h0 : inUnit (g k)) (h1 : inUnit (g (k + 1))) (h2 : inUnit (g (k + 2)))
    (h3 : inUnit (g (k + 3))) (h4 : inUnit (g (k + 4))) (h5 : inUnit (g (k + 5)))
    (h6 : inUnit (g (k + 6))) (h7 : inUnit (g (k + 7))) (h8 : inUnit (g (k + 8)))
    (h9 : inUnit (g (k + 9))) (h10 : inUnit (g (k + 10)))
    (h11 : inUnit (g (k + 11))) :
    (buildRandomProps g k).1.direction ∈ directions ∧
    (buildRandomProps g k).1.align ∈ aligns ∧
    (buildRandomProps g k).1.justify ∈ justifies ∧
    (buildRandomProps g k).1.wrap ∈ wraps ∧
    (buildRandomProps g k).1.gap ∈ gaps ∧
    (buildRandomProps g k).1.padding ∈ paddings ∧
    (∀ w, (buildRandomProps g k).1.width = some w → w ∈ sizes) ∧
    (∀ hv, (buildRandomProps g k).1.height = some hv → hv ∈ sizes) ∧
    (∀ f, (buildRandomProps g k).1.flex = some f → f ∈ flexChoices) := by
  refine ⟨?_, ?_, ?_, ?_, ?_, ?_, ?_, ?_, ?_⟩
  · exact pick_mem directions (g k) (by decide) h0.1 h0.2
  · exact pick_mem aligns (g (k + 1)) (by decide) h1.1 h1.2
  · exact pick_mem justifies (g (k + 2)) (by decide) h2.1 h2.2
  · exact pick_mem wraps (g (k + 3)) (by decide) h3.1 h3.2
  · exact pick_mem gaps (g (k + 4)) (by decide) h4.1 h4.2
  · exact pick_mem paddings (g (k + 5)) (by decide) h5.1 h5.2
  · intro w hw
    have hw2 : maybeV (pick sizes (g (k + 6))) (35 / 100) (g (k + 7)) = some w := hw
    unfold maybeV at hw2
    split_ifs at hw2
    · injection hw2 with hw3
      rw [← hw3]
      exact pick_mem sizes (g (k + 6)) (by decide) h6.1 h6.2
  · intro hv hh
    have hh2 : maybeV (pick sizes (g (k + 8))) (35 / 100) (g (k + 9)) = some hv := hh
    unfold maybeV at hh2
    split_ifs at hh2
    · injection hh2 with hh3
      rw [← hh3]
      exact pick_mem sizes (g (k + 8)) (by decide) h8.1 h8.2
  · intro f hf
    have hf2 : maybeV (pick flexChoices (g (k + 10))) (4 / 10) (g (k + 11)) = some f := hf
    unfold maybeV at hf2
    split_ifs at hf2
    · injection hf2 with hf3
      rw [← hf3]
      exact pick_mem flexChoices (g (k + 10)) (by decide) h10.1 h10.2

/-- Witness for C7: the constant-zero stream is a legal random source; on it
the direction is drawn from the enumeration and the flex shorthand that is
present is the enumerated `0`. -/
theorem random_mode_values_in_enumerations_witness :
    inUnit (zeroRand 0) ∧
      (buildRandomProps zeroRand 0).1.direction ∈ directions ∧
      (buildRandomProps zeroRand 0).1.flex = some (FlexValue.num 0) ∧
      FlexValue.num 0 ∈ flexChoices := by
  have hflex : (buildRandomProps zeroRand 0).1.flex = some (FlexValue.num 0) := by
    norm_num [buildRandomProps, maybeV, pick, zeroRand, flexChoices]
  exact ⟨by decide,
    (random_mode_values_in_enumerations zeroRand 0 (by decide) (by decide)
        (by decide) (by decide) (by decide) (by decide) (by decide) (by decide)
        (by decide) (by decide) (by decide) (by decide)).1,
    hflex,
    (random_mode_values_in_enumerations zeroRand 0 (by decide) (by decide)
        (by decide) (by decide) (by decide) (by decide) (by decide) (by decide)
        (by decide) (by decide) (by decide) (by decide)).2.2.2.2.2.2.2.2
      (FlexValue.num 0) hflex⟩

/-- One step of the `formatBytes` scaling loop does not fire below 1024. -/
lemma scaleStep_stop (v : ℚ) (i fuel : ℕ) (h : v < 1024) :
    scaleStep v i (fuel + 1) = (v, i) := by
  simp only [scaleStep]
  rw [if_neg]
  intro hc
  exact absurd hc.1 (not_le.mpr h)

/-- Values below 1 KiB stay in the `B` band. -/
lemma scaleStep_B (v : ℚ) (h : v < 1024) : scaleStep v 0 4 = (v, 0) :=
  scaleStep_stop v 0 3 h

/-- Values in `[1 KiB, 1 MiB)` are divided once: the `KB` band. -/
lemma scaleStep_KB (v : ℚ) (h0 : 1024 ≤ v) (h : v < 1024 ^ 2) :
    scaleStep v 0 4 = (v / 1024, 1) := by
  have hdiv : v / 1024 < 1024 := by
    rw [div_lt_iff (by norm_num : (0 : ℚ) < 1024)]
    calc v < 1024 ^ 2 := h
      _ = 1024 * 1024 := by norm_num
  simp only [scaleStep]
  rw [if_pos ⟨h0, by norm_num⟩, if_neg]
  intro hc
  exact absurd hc.1 (not_le.mpr hdiv)

/-- Values in `[1 MiB, 1 GiB)` are divided twice: the `MB` band. -/
lemma scaleStep_MB (v : ℚ) (h0 : 1024 ^ 2 ≤ v) (h : v < 1024 ^ 3) :
    scaleStep v 0 4 = (v / 1024 / 1024, 2) := by
  have h1 : (1024 : ℚ) ≤ v := by nlinarith
  have h2 : (1024 : ℚ) ≤ v / 1024 := by
    rw [le_div_iff (by norm_num : (0 : ℚ) < 1024)]
    nlinarith
  have hdiv : v / 1024 / 1024 < 1024 := by
    rw [div_lt_iff (by norm_num : (0 : ℚ) < 1024),
        div_lt_iff (by norm_num : (0 : ℚ) < 1024)]
    nlinarith
  simp only [scaleStep]
  rw [if_pos ⟨h1, by norm_num⟩, if_pos ⟨h2, by norm_num⟩, if_neg]
  intro hc
  exact absurd hc.1 (not_le.mpr hdiv)

/-- Values of 1 GiB and above are divided three times and capped at the `GB`
band: the loop guard `i < units.length - 1` stops further division. -/
lemma scaleStep_GB (v : ℚ) (h0 : 1024 ^ 3 ≤ v) :
    scaleStep v 0 4 = (v / 1024 / 1024 / 1024, 3) := by
  have h1 : (1024 : ℚ) ≤ v := by nlinarith
  have h2 : (1024 : ℚ) ≤ v / 1024 := by
    rw [le_div_iff (by norm_num : (0 : ℚ) < 1024)]
    nlinarith
  have h3 : (1024 : ℚ) ≤ v / 1024 / 1024 := by
    rw [le_div_iff (by norm_num : (0 : ℚ) < 1024),
        le_div_iff (by norm_num : (0 : ℚ) < 1024)]
    nlinarith
  simp only [scaleStep]
  rw [if_pos ⟨h1, by norm_num⟩, if_pos ⟨h2, by norm_num⟩, if_pos ⟨h3, by norm_num⟩,
      if_neg]
  intro hc
  exact absurd hc.2 (by norm_num)

/-- The cast of an integer's `natAbs` into ℚ is the integer itself when the
integer is nonnegative. -/
lemma natAbs_cast_of_nonneg (d : ℤ) (h : 0 ≤ d) :
    (((d.natAbs : ℕ) : ℚ)) = (d : ℚ) := by
  rw [Int.cast_natAbs]
  exact congrArg _ (abs_of_nonneg h)

/-- `toFixed(2)` of the rational 48576 / 1024 = 47.4375 is the string
`47.44`. -/
lemma toFixed2_48576_div_1024 : toFixed2 ((48576 : ℚ) / 1024) = "47.44" := by
  unfold toFixed2
  have hfl : Int.floor ((48576 : ℚ) / 1024 * 100 + 1 / 2) = 4744 := by
    rw [Int.floor_eq_iff]
    constructor <;> norm_num
  rw [hfl]
  decide

/-- Concrete string facts used when assembling `formatBytes` output. -/
lemma space_append_B : (" " : String) ++ "B" = " B" := by decide

/-- See `space_append_B`. -/
lemma space_append_KB : (" " : String) ++ "KB" = " KB" := by decide

/-- See `space_append_B`. -/
lemma space_append_MB : (" " : String) ++ "MB" = " MB" := by decide

/-- See `space_append_B`. -/
lemma space_append_GB : (" " : String) ++ "GB" = " GB" := by decide

/-- The used-heap delta of the two concrete samples is 48,576 bytes. -/
lemma memDelta_example :
    memDelta (some memBefore1M) (some memAfter1Mi) = some 48576 := by
  norm_num [memDelta, memBefore1M, memAfter1Mi]

/-- 48,576 bytes format as `47.44 KB` (48576 / 1024 = 47.4375, rounded to two
decimals). -/
lemma formatBytes_48576 : formatBytes (some (48576 : ℤ)) = "47.44 KB" := by
  simp only [formatBytes]
  rw [if_neg (by decide : ¬((48576 : ℤ) < 0)),
      natAbs_cast_of_nonneg 48576 (by decide),
      (by norm_num : (((48576 : ℤ) : ℚ)) = (48576 : ℚ)),
      scaleStep_KB 48576 (by norm_num) (by norm_num)]
  rw [(rfl : ((48576 : ℚ) / 1024, 1).1 = (48576 : ℚ) / 1024),
      toFixed2_48576_div_1024]
  decide

/-- Claim C3 (amended): a missing operand in a delta yields the explicit `-`
marker; with both operands present `formatBytes` scales by 1024 per unit step
through B/KB/MB/GB with two decimal places, preserving the sign of negative
deltas; and the concrete delta (before used = 1,000,000, after used =
1,048,576) is 48,576 bytes and formats as the positive value `47.44 KB` —
at least 1.00 KB, but not below 2.00 KB as the original claim stated. -/
theorem formatBytes_memDelta_presentation :
    (∀ a b : Option MemorySample,
        a.bind MemorySample.usedJSHeapSize = none ∨
          b.bind MemorySample.usedJSHeapSize = none →
        formatBytes (memDelta a b) = "-") ∧
    (∀ d : ℤ, d < 0 → formatBytes (some d) = "-" ++ formatBytes (some (-d))) ∧
    (∀ d : ℤ, 0 ≤ d → d < 1024 →
        formatBytes (some d) = toFixed2 (d : ℚ) ++ " B") ∧
    (∀ d : ℤ, 1024 ≤ d → d < 1024 ^ 2 →
        formatBytes (some d) = toFixed2 ((d : ℚ) / 1024) ++ " KB") ∧
    (∀ d : ℤ, 1024 ^ 2 ≤ d → d < 1024 ^ 3 →
        formatBytes (some d) = toFixed2 ((d : ℚ) / 1024 / 1024) ++ " MB") ∧
    (∀ d : ℤ, 1024 ^ 3 ≤ d →
        formatBytes (some d) = toFixed2 ((d : ℚ) / 1024 / 1024 / 1024) ++ " GB") ∧
    formatBytes (memDelta (some memBefore1M) (some memAfter1Mi)) = "47.44 KB" := by
  refine ⟨?_, ?_, ?_, ?_, ?_, ?_, ?_⟩
  · intro a b h
    have hnone : memDelta a b = none := by
      rcases h with h | h
      · cases hb : b.bind MemorySample.usedJSHeapSize <;> simp [memDelta, h, hb]
      · cases ha : a.bind MemorySample.usedJSHeapSize <;> simp [memDelta, h, ha]
    rw [hnone]
    rfl
  · intro d hd
    simp only [formatBytes]
    rw [if_pos hd, if_neg (by omega : ¬(-d < 0)), Int.natAbs_neg]
    simp [String.append_assoc]
  · intro d h0 h1
    have hv : ((d : ℚ)) < 1024 := by exact_mod_cast h1
    simp only [formatBytes]
    rw [if_neg (by omega : ¬(d < 0)), natAbs_cast_of_nonneg d h0,
        scaleStep_B _ hv]
    simp [byteUnits, String.append_assoc, space_append_B]
  · intro d h0 h1
    have hl : (1024 : ℚ) ≤ (d : ℚ) := by exact_mod_cast h0
    have hv : ((d : ℚ)) < 1024 ^ 2 := by exact_mod_cast h1
    simp only [formatBytes]
    rw [if_neg (by omega : ¬(d < 0)), natAbs_cast_of_nonneg d (by omega),
        scaleStep_KB _ hl hv]
    simp [byteUnits, String.append_assoc, space_append_KB]
  · intro d h0 h1
    have hnn : (0 : ℤ) ≤ d := le_trans (by norm_num) h0
    have hl : (1024 : ℚ) ^ 2 ≤ (d : ℚ) := by exact_mod_cast h0
    have hv : ((d : ℚ)) < 1024 ^ 3 := by exact_mod_cast h1
    simp only [formatBytes]
    rw [if_neg (by omega : ¬(d < 0)), natAbs_cast_of_nonneg d hnn,
        scaleStep_MB _ hl hv]
    simp [byteUnits, String.append_assoc, space_append_MB]
  · intro d h0
    have hnn : (0 : ℤ) ≤ d := le_trans (by norm_num) h0
    have hl : (1024 : ℚ) ^ 3 ≤ (d : ℚ) := by exact_mod_cast h0
    simp only [formatBytes]
    rw [if_neg (by omega : ¬(d < 0)), natAbs_cast_of_nonneg d hnn,
        scaleStep_GB _ hl]
    simp [byteUnits, String.append_assoc, space_append_GB]
  · rw [memDelta_example]
    exact formatBytes_48576

/-- Counterexample to claim C3's concrete bound: the delta of the two samples
is 48,576 bytes, which formats as `47.44 KB` — not a value below 2.00 KB
(48,576 is not less than 2 × 1024 bytes). -/
theorem byte_delta_example_not_below_2KB :
    memDelta (some memBefore1M) (some memAfter1Mi) = some 48576 ∧
      formatBytes (some (48576 : ℤ)) = "47.44 KB" ∧
      ¬((48576 : ℤ) < 2 * 1024) :=
  ⟨memDelta_example, formatBytes_48576, by decide⟩

/-- Witness for C3: a delta with a missing operand formats as the `-` marker,
and a negative delta is formatted sign-first. -/
theorem formatBytes_memDelta_presentation_witness :
    formatBytes (memDelta (some memNoUsed) (some memAfter1Mi)) = "-" ∧
      ((-5 : ℤ) < 0) ∧
      formatBytes (some (-5 : ℤ)) = "-" ++ formatBytes (some (-(-5 : ℤ))) :=
  ⟨formatBytes_memDelta_presentation.1 (some memNoUsed) (some memAfter1Mi)
      (Or.inl rfl),
   by decide,
   formatBytes_memDelta_presentation.2.1 (-5) (by decide)⟩

/-- Filtering the upsert result for names other than the upserted one returns
exactly the unrelated entries of the original store, in their original order:
`upsertResult` only touches the entry with the matching name. -/
lemma upsert_filter_ne (r : CaseResult) (s : List CaseResult) :
    (upsertResult r s).filter (fun x => x.name ≠ r.name) =
      s.filter (fun x => x.name ≠ r.name) := by
  induction s with
  | nil => simp [upsertResult]
  | cons a t ih =>
    by_cases ha : a.name = r.name
    · simp [upsertResult, ha]
    · simp only [upsertResult, if_neg ha]
      rw [List.filter_cons, List.filter_cons]
      simp only [ih]

/-- In a store whose names are distinct, the upsert result holds exactly one
entry with the upserted name: the upserted result itself. -/
lemma upsert_filter_eq (r : CaseResult) (s : List CaseResult)
    (h : (s.map (fun x => x.name)).Nodup) :
    (upsertResult r s).filter (fun x => x.name = r.name) = [r] := by
  induction s with
  | nil => simp [upsertResult]
  | cons a t ih =>
    simp only [List.map_cons, List.nodup_cons] at h
    by_cases ha : a.name = r.name
    · have hnot : t.filter (fun x => x.name = r.name) = [] := by
        refine List.filter_eq_nil_iff.mpr ?_
        intro x hx
        simp only [decide_eq_true_eq]
        intro hxn
        apply h.1
        rw [ha, ← hxn]
        exact List.mem_map_of_mem _ hx
      simp [upsertResult, ha, hnot]
    · simp [upsertResult, ha, ih h.2]

/-- Every name present after an upsert was present before or is the upserted
name. -/
lemma upsert_map_name_mem (r : CaseResult) (s : List CaseResult) (x : String)
    (hx : x ∈ (upsertResult r s).map (fun c => c.name)) :
    x ∈ s.map (fun c => c.name) ∨ x = r.name := by
  induction s with
  | nil =>
    simp [upsertResult] at hx
    exact Or.inr hx
  | cons a t ih =>
    by_cases ha : a.name = r.name
    · simp only [upsertResult, ha, if_true, List.map_cons, List.mem_cons] at hx
      rcases hx with hx | hx
      · exact Or.inr hx
      · exact Or.inl (by simp [hx])
    · simp only [upsertResult, ha, if_false, List.map_cons, List.mem_cons] at hx
      rcases hx with hx | hx
      · exact Or.inl (by simp [hx])
      · rcases ih hx with h1 | h1
        · exact Or.inl (by simp [h1])
        · exact Or.inr h1

/-- Upserting preserves distinctness of the names in the store: the Result
Store invariant every reachable store state satisfies (the store starts empty
and is only modified by `upsertResult` and `clear`). -/
lemma upsert_nodup (r : CaseResult) (s : List CaseResult)
    (h : (s.map (fun x => x.name)).Nodup) :
    ((upsertResult r s).map (fun x => x.name)).Nodup := by
  induction s with
  | nil => simp [upsertResult]
  | cons a t ih =>
    simp only [List.map_cons, List.nodup_cons] at h
    by_cases ha : a.name = r.name
    · simp only [upsertResult, ha, if_true, List.map_cons, List.nodup_cons]
      exact ⟨by rw [← ha]; exact h.1, h.2⟩
    · simp only [upsertResult, ha, if_false, List.map_cons, List.nodup_cons]
      refine ⟨?_, ih h.2⟩
      intro hmem
      rcases upsert_map_name_mem r t a.name hmem with h1 | h1
      · exact h.1 h1
      · exact ha h1

/-- Claim C9: on a store with distinct case names (the invariant maintained
by `upsertResult` from the empty store, see `upsert_nodup`), upserting two
results with the same case name leaves exactly one entry for that name,
holding the latest values, and the entries with unrelated names keep their
original order and values. -/
theorem upsert_replace_or_append_idempotent (s : List CaseResult)
    (r1 r2 : CaseResult) (hnd : (s.map (fun x => x.name)).Nodup)
    (hname : r1.name = r2.name) :
    (upsertResult r2 (upsertResult r1 s)).filter
        (fun x => x.name = r2.name) = [r2] ∧
      (upsertResult r2 (upsertResult r1 s)).filter
          (fun x => x.name ≠ r2.name) =
        s.filter (fun x => x.name ≠ r2.name) := by
  constructor
  · exact upsert_filter_eq r2 _ (upsert_nodup r1 s hnd)
  · rw [upsert_filter_ne r2 (upsertResult r1 s), ← hname]
    exact upsert_filter_ne r1 s

/-- Witness for C9: upserting two results named `local(FlexBasic)` into a
store holding one unrelated result leaves one entry for that name, with the
latest values. -/
theorem upsert_replace_or_append_idempotent_witness :
    (([mkResult "native(WebComponent)" 3].map (fun x => x.name)).Nodup) ∧
      (mkResult "local(FlexBasic)" 1).name = (mkResult "local(FlexBasic)" 2).name ∧
      (upsertResult (mkResult "local(FlexBasic)" 2)
          (upsertResult (mkResult "local(FlexBasic)" 1)
            [mkResult "native(WebComponent)" 3])).filter
          (fun x => x.name = (mkResult "local(FlexBasic)" 2).name) =
        [mkResult "local(FlexBasic)" 2] :=
  ⟨by decide, by decide,
   (upsert_replace_or_append_idempotent [mkResult "native(WebComponent)" 3]
      (mkResult "local(FlexBasic)" 1) (mkResult "local(FlexBasic)" 2)
      (by decide) (by decide)).1⟩

/-- Claim C2: whenever the `try` block of the per-case driver raises an error
(unknown case, create-only sanity-check failure, or update-phase
configuration error — every error path of `runOneTry`), `runOne` captures the
human-readable message, leaves the Result Store exactly as it was, and clears
the running flag; and in every outcome, error or success, the running flag is
cleared on exit. -/
theorem runOne_failure_captures_and_clears (cfg : BenchConfig) (env : Env)
    (name : String) (st : RunState) (dom : DomState) :
    (∀ msg, (runOneTry cfg env name dom).2 = .error msg →
        (runOne cfg env name st dom).1 =
          { running := false, results := st.results, error := some msg }) ∧
      ((runOne cfg env name st dom).1).running = false := by
  constructor
  · intro msg hmsg
    unfold runOne
    rcases htry : runOneTry cfg env name dom with ⟨dom2, r⟩
    rw [htry] at hmsg
    simp only at hmsg
    subst hmsg
    simp [htry]
  · unfold runOne
    rcases htry : runOneTry cfg env name dom with ⟨dom2, r⟩
    cases r <;> simp [htry]

/-- Witness for C2: running an unknown case name fails with the unknown-case
message, leaves the (empty) store untouched, and clears the running flag. -/
theorem runOne_failure_captures_and_clears_witness :
    (runOneTry cfg0 env0 "bogus" dom0).2 = .error "Unknown case: bogus" ∧
      (runOne cfg0 env0 "bogus" st0 dom0).1 =
        { running := false, results := st0.results
        , error := some "Unknown case: bogus" } ∧
      ((runOne cfg0 env0 "bogus" st0 dom0).1).running = false := by
  have htry : (runOneTry cfg0 env0 "bogus" dom0).2 = .error "Unknown case: bogus" :=
    rfl
  exact ⟨htry,
    (runOne_failure_captures_and_clears cfg0 env0 "bogus" st0 dom0).1
      "Unknown case: bogus" htry,
    (runOne_failure_captures_and_clears cfg0 env0 "bogus" st0 dom0).2⟩
